import Mathlib

/-!
Shallow embedding of the database-cleanup CLI found in
`src/lib/db/schema/computers.ts` (the "Table Maintenance Tool" of the spec).

The tool is a sequential pipeline: discovery, selection, statistics,
reporting, confirmation, destructive phase, result reporting, plus a
graceful-exit signal handler.  Database round-trips are modelled by an
oracle (`Nat → Bool` success bits consumed in program order, plus a
`String → Nat` row-count state), user input by plain strings, and the
observable behaviour of a run by a trace of events together with the
process exit code.
-/

namespace DbCleanup

/-- The two operations of the tool (`type Operation = 'delete' | 'drop'`). -/
inductive Operation where
  | delete
  | drop
deriving DecidableEq, Repr

/-- `interface TableStats { name: string; rowCount: number }`. -/
structure TableStats where
  name : String
  rowCount : Nat
deriving DecidableEq, Repr

/-- JavaScript whitespace recognised by `String.prototype.trim` /
`parseInt` leading-whitespace skipping (the common cases). -/
def jsIsSpace (c : Char) : Bool :=
  c = ' ' || c = '\t' || c = '\n' || c = '\r'

/-- `s.trim()` on a list of characters: strip whitespace on both ends. -/
def jsTrimList (cs : List Char) : List Char :=
  ((cs.dropWhile jsIsSpace).reverse.dropWhile jsIsSpace).reverse

/-- `s.trim()`. -/
def jsTrim (s : String) : String :=
  ⟨jsTrimList s.data⟩

/-- Accumulate the longest decimal-digit run, ignoring the rest
(`parseInt` stops at the first non-digit). -/
def digitsAcc (acc : Nat) : List Char → Nat
  | [] => acc
  | c :: cs => if c.isDigit then digitsAcc (acc * 10 + (c.toNat - 48)) cs else acc

/-- Value of a digit run that must start immediately; `none` when the
first character is not a digit (`parseInt` yields `NaN`). -/
def digitsVal : List Char → Option Nat
  | [] => none
  | c :: cs => if c.isDigit then some (digitsAcc (c.toNat - 48) cs) else none

/-- `parseInt(s, 10)`: skip leading whitespace, optional sign, then the
longest decimal-digit run; `none` models `NaN`. -/
def jsParseInt10 (s : String) : Option Int :=
  match s.data.dropWhile jsIsSpace with
  | '+' :: rest => (digitsVal rest).map Int.ofNat
  | '-' :: rest => (digitsVal rest).map (fun n => -(n : Int))
  | rest => (digitsVal rest).map Int.ofNat

/-- `s.split(',')` at the character level: split into the (possibly
empty) runs between commas. -/
def splitCommaAux (cur : List Char) : List Char → List (List Char)
  | [] => [cur.reverse]
  | c :: cs =>
    if c = ',' then cur.reverse :: splitCommaAux [] cs
    else splitCommaAux (c :: cur) cs

/-- The `requested` list inside `filterTables`: split the `--tables`
string on commas, trim each piece, drop empty pieces. -/
def requestedNames (s : String) : List String :=
  (((splitCommaAux [] s.data).map (fun cs => (⟨jsTrimList cs⟩ : String))).filter
    (fun t => t ≠ ""))

/-- `filterTables(allTables, requestedTables)` split into the returned
selection and the `notFound` list it warns about (the warning is printed
exactly when `notFound` is non-empty).  `requestedTables === undefined`
is the `none` case; the guard `if (!requestedTables)` is a JS falsiness
check, so the empty string also returns `allTables` unfiltered. -/
def filterTables (allTables : List String) (requestedTables : Option String) :
    List String × List String :=
  match requestedTables with
  | none => (allTables, [])
  | some s =>
    if s = "" then (allTables, [])
    else
      let requested := requestedNames s
      let filtered := requested.filter (fun t => allTables.contains t)
      let notFound := requested.filter (fun t => ¬ allTables.contains t)
      (filtered, notFound)

/-- `promptYesNo`'s decision on a response string: empty input falls back
to `defaultYes`; otherwise the lower-cased response must be `y` or
`yes`. -/
def promptYesNo (response : String) (defaultYes : Bool) : Bool :=
  if response = "" then defaultYes
  else response.toLower = "y" || response.toLower = "yes"

/-- The comparison-and-offset step of `promptChoice` on the parsed
value: `choice - 1` when `1 <= choice && choice <= n`, else `-1`
(`NaN`, the `none` case, fails both comparisons). -/
def promptChoiceCore (r : Option Int) (n : Nat) : Int :=
  match r with
  | none => -1
  | some choice => if 1 ≤ choice ∧ choice ≤ (n : Int) then choice - 1 else -1

/-- `promptChoice`'s returned index for a response string and `n`
choices: `parseInt(response || '0', 10)`, minus one when in `1..n`,
`-1` otherwise. -/
def promptChoice (response : String) (n : Nat) : Int :=
  promptChoiceCore (jsParseInt10 (if response = "" then "0" else response)) n

/-- `getTableStats`: one `SELECT COUNT(*)` per table; a throwing count
(oracle `none`) is caught locally and pushed as row count `0`. -/
def getTableStats (count : String → Option Nat) : List String → List TableStats
  | [] => []
  | t :: ts =>
    match count t with
    | some k => ⟨t, k⟩ :: getTableStats count ts
    | none => ⟨t, 0⟩ :: getTableStats count ts

/-- The database's row counts per table name (the state `deleteTables`
reads with `SELECT COUNT(*)` and clears with `DELETE FROM`). -/
def DbState := String → Nat

/-- `DELETE FROM "t"` on the row-count state. -/
def clearTable (st : DbState) (t : String) : DbState :=
  fun x => if x = t then 0 else st x

/-- `deleteTables` on the happy path: per table, read the pre-delete
count, delete all rows, and accumulate the count into the returned
total; returns the total together with the post-run state. -/
def deleteTables (st : DbState) : List String → Nat × DbState
  | [] => (0, st)
  | t :: ts =>
    let rowCount := st t
    let rest := deleteTables (clearTable st t) ts
    (rowCount + rest.1, rest.2)

/-- The pre-delete row counts `deleteTables` observes, in order: each
table's count immediately before its own `DELETE`. -/
def preDeleteCounts (st : DbState) : List String → List Nat
  | [] => []
  | t :: ts => st t :: preDeleteCounts (clearTable st t) ts

/-!
## Trace model of a whole run

Each database statement and each user-visible message of interest is an
`Event`; statements carry the success bit the failure oracle assigned to
them.  `process.exit(n)` ends the run with code `n`; a run that lets the
script finish naturally exits with code 0.
-/

/-- Observable events of a run, in program order. -/
inductive Event where
  | qryTables (ok : Bool)
  | msgNoTablesFound
  | warnNotFound (names : List String)
  | msgCancelled
  | msgNotImplemented
  | msgNoTablesToProcess
  | qryCountStats (t : String) (ok : Bool)
  | msgDryRun
  | warnIrreversible (wording : String)
  | pragmaOff (ok : Bool)
  | qryCountPhase (t : String) (ok : Bool)
  | delRows (t : String) (ok : Bool)
  | dropTbl (t : String) (ok : Bool)
  | qrySeqTable (ok : Bool)
  | delSeq (ok : Bool)
  | pragmaOnTry (ok : Bool)
  | errCleanupLogged
  | pragmaOnCatch (ok : Bool)
  | msgRestored
  | errFkRestoreFailed
  | msgUnexpectedError
  | msgReceivedSignal (sig : String)
  | pragmaOnGfx (ok : Bool)
  | msgDbRestored
  | msgCouldNotRestore
  | msgGoodbye
  | msgForceClose
  | msgResults (tablesProcessed totalRows : Nat)
deriving DecidableEq, Repr

/-- A statement that mutates the store or its session state: `DELETE`,
`DROP`, the sequence reset, or a `PRAGMA foreign_keys` toggle. -/
def Event.isMutation : Event → Bool
  | .pragmaOff _ => true
  | .pragmaOnTry _ => true
  | .pragmaOnCatch _ => true
  | .pragmaOnGfx _ => true
  | .delRows _ _ => true
  | .dropTbl _ _ => true
  | .delSeq _ => true
  | _ => false

/-- First warning line `displayWarning` prints for each operation. -/
def warningText : Operation → String
  | .drop => "WARNING: This will DROP tables entirely (schema and data)!"
  | .delete => "This will DELETE ALL DATA from the selected tables!"

/-- Outcome of the loop body of the destructive phase. -/
structure BodyOut where
  events : List Event
  next : Nat
  st : DbState
  /-- `some total` when every statement succeeded; `none` when one threw. -/
  total : Option Nat

/-- The `deleteTables` loop under the failure oracle `ω` (success bits
consumed from index `i` on): per table a `COUNT` then a `DELETE`; the
first throwing statement aborts the loop. -/
def deleteBody (ω : Nat → Bool) (i : Nat) (st : DbState) : List String → BodyOut
  | [] => ⟨[], i, st, some 0⟩
  | t :: ts =>
    if ω i then
      if ω (i + 1) then
        let rest := deleteBody ω (i + 2) (clearTable st t) ts
        ⟨.qryCountPhase t true :: .delRows t true :: rest.events, rest.next,
          rest.st, rest.total.map (st t + ·)⟩
      else ⟨[.qryCountPhase t true, .delRows t false], i + 2, st, none⟩
    else ⟨[.qryCountPhase t false], i + 1, st, none⟩

/-- The `dropTables` loop under the failure oracle (row-count state is
not tracked for dropped tables; no later step reads it). -/
def dropBody (ω : Nat → Bool) (i : Nat) (st : DbState) : List String → BodyOut
  | [] => ⟨[], i, st, some 0⟩
  | t :: ts =>
    if ω i then
      let rest := dropBody ω (i + 1) st ts
      ⟨.dropTbl t true :: rest.events, rest.next, rest.st, rest.total⟩
    else ⟨[.dropTbl t false], i + 1, st, none⟩

/-- Tag a run of body events with the current `foreignKeysDisabled`
value (the body never assigns the flag). -/
def withFlag (evs : List Event) (b : Bool) : List (Event × Bool) :=
  evs.map (fun e => (e, b))

/-- The `catch` block of `cleanup`'s destructive phase: log the error,
and only if `foreignKeysDisabled` attempt one `PRAGMA foreign_keys = ON`
whose own failure is reported but not retried.  The flag is never
assigned here. -/
def phaseCatchEvents (ω : Nat → Bool) (flag : Bool) (i : Nat) : List Event :=
  Event.errCleanupLogged ::
    (if flag then
      Event.pragmaOnCatch (ω i) ::
        (if ω i then [Event.msgRestored] else [Event.errFkRestoreFailed])
    else [])

/-- Result of the destructive phase: the events with the live
`foreignKeysDisabled` value after each one, the accumulated
`totalRowsDeleted`, the final row-count state, and whether the phase
completed without throwing. -/
structure PhaseOut where
  events : List (Event × Bool)
  total : Nat
  st : DbState
  ok : Bool

/-- Tail of the phase after a successful body: the in-try
`PRAGMA foreign_keys = ON` that clears the flag, then `displayResults`;
if that `PRAGMA` throws, the `catch` runs with the flag still set.
`preEvents` are the events of the window so far (flag set). -/
def phaseFinish (ω : Nat → Bool) (k : Nat) (preEvents : List Event)
    (n total : Nat) (st : DbState) : PhaseOut :=
  if ω k then
    ⟨withFlag preEvents true
        ++ [(Event.pragmaOnTry true, false), (Event.msgResults n total, false)],
      total, st, true⟩
  else
    ⟨withFlag (preEvents ++ [Event.pragmaOnTry false]) true
        ++ withFlag (phaseCatchEvents ω true (k + 1)) true,
      total, st, false⟩

/-- The destructive phase of `cleanup`: `PRAGMA foreign_keys = OFF`
(setting the flag on success), the per-table loop, delete-mode sequence
reset, the re-enabling `PRAGMA` (clearing the flag), and the `catch`
block on any throw. -/
def destructivePhase (ω : Nat → Bool) (op : Operation) (ts : List String)
    (seq : Bool) (st : DbState) : PhaseOut :=
  if ω 0 then
    match op with
    | .drop =>
      let b := dropBody ω 1 st ts
      match b.total with
      | none =>
        ⟨withFlag (Event.pragmaOff true :: b.events
            ++ phaseCatchEvents ω true b.next) true, 0, b.st, false⟩
      | some _ =>
        phaseFinish ω b.next (Event.pragmaOff true :: b.events) ts.length 0 b.st
    | .delete =>
      let b := deleteBody ω 1 st ts
      match b.total with
      | none =>
        ⟨withFlag (Event.pragmaOff true :: b.events
            ++ phaseCatchEvents ω true b.next) true, 0, b.st, false⟩
      | some total =>
        if ω b.next then
          if seq then
            if ω (b.next + 1) then
              phaseFinish ω (b.next + 2)
                (Event.pragmaOff true :: b.events
                  ++ [Event.qrySeqTable true, Event.delSeq true])
                ts.length total (clearTable b.st "sqlite_sequence")
            else
              ⟨withFlag (Event.pragmaOff true :: b.events
                  ++ [Event.qrySeqTable true, Event.delSeq false]
                  ++ phaseCatchEvents ω true (b.next + 2)) true,
                total, b.st, false⟩
          else
            phaseFinish ω (b.next + 1)
              (Event.pragmaOff true :: b.events ++ [Event.qrySeqTable true])
              ts.length total b.st
        else
          ⟨withFlag (Event.pragmaOff true :: b.events ++ [Event.qrySeqTable false]
              ++ phaseCatchEvents ω true (b.next + 1)) true,
            total, b.st, false⟩
  else
    ⟨withFlag (Event.pragmaOff false :: phaseCatchEvents ω false 1) false,
      0, st, false⟩

/-- `gracefulExit(signal)`: a re-entrant call forces `process.exit(1)`
immediately; otherwise it announces the signal, waits out the cleanup
race, re-enables foreign keys best-effort, and calls `process.exit(0)`.
Returns the exit code and the handler's events. -/
def gracefulExit (isCleaningUp : Bool) (sig : String) (onOk : Bool) :
    Nat × List Event :=
  if isCleaningUp then (1, [Event.msgForceClose])
  else
    (0, Event.msgReceivedSignal sig :: Event.pragmaOnGfx onOk ::
      (if onOk then [Event.msgDbRestored] else [Event.msgCouldNotRestore])
      ++ [Event.msgGoodbye])

/-- The CLI flags parsed by `parseArgs`. -/
structure Flags where
  confirm : Bool
  tables : Option String
  dryRun : Bool
  drop : Bool
  interactive : Bool

/-- Environment of one run: database responses and user input.
`discovered = none` models a throwing discovery query. -/
structure Oracle where
  discovered : Option (List String)
  statsCount : String → Option Nat
  menuInput : String
  yesNoInput : String
  phase : Nat → Bool
  seqTable : Bool
  st : DbState
  gfxOn : Bool

/-- Exit code and event trace of one whole process run. -/
structure RunOut where
  exitCode : Nat
  events : List Event
deriving DecidableEq, Repr

/-- The entry-point `.catch` path: `cleanup` threw, the error is printed
and `gracefulExit('error')` runs; its `process.exit(0)` fires before the
chained `process.exit(1)` can. -/
def entryCatch (o : Oracle) (pre : List Event) : RunOut :=
  let g := gracefulExit false "error" o.gfxOn
  ⟨g.1, pre ++ Event.msgUnexpectedError :: g.2⟩

/-- `cleanup` from the statistics pass on, for an already-selected
non-empty table list, then the entry-point handling of its outcome. -/
def runSelected (f : Flags) (o : Oracle) (op : Operation) (pre : List Event)
    (sel : List String) : RunOut :=
  let statsEvents := sel.map (fun t => Event.qryCountStats t (o.statsCount t).isSome)
  let pre := pre ++ statsEvents
  if f.dryRun then ⟨0, pre ++ [Event.msgDryRun]⟩
  else
    let gate : List Event × Bool :=
      if f.confirm then ([], true)
      else ([Event.warnIrreversible (warningText op)], promptYesNo o.yesNoInput false)
    if gate.2 then
      let ph := destructivePhase o.phase op sel o.seqTable o.st
      if ph.ok then ⟨0, pre ++ gate.1 ++ ph.events.map (·.1)⟩
      else entryCatch o (pre ++ gate.1 ++ ph.events.map (·.1))
    else ⟨0, pre ++ gate.1 ++ [Event.msgCancelled]⟩

/-- JS truthiness of the optional `--tables` string, as tested by
`if (values.tables)`: `undefined` and the empty string are falsy. -/
def tablesGiven : Option String → Bool
  | none => false
  | some s => s ≠ ""

/-- One whole run of the tool: discovery, selection (explicit filter
when `values.tables` is truthy, otherwise the interactive menu or all
tables), empty-selection exit, then `runSelected`. -/
def runCleanup (f : Flags) (o : Oracle) : RunOut :=
  match o.discovered with
  | none => entryCatch o [Event.qryTables false]
  | some allTables =>
    if allTables = [] then ⟨0, [Event.qryTables true, Event.msgNoTablesFound]⟩
    else
      let op := if f.drop then Operation.drop else Operation.delete
      if tablesGiven f.tables then
        let sel := filterTables allTables f.tables
        let pre := Event.qryTables true ::
          (if sel.2 = [] then [] else [Event.warnNotFound sel.2])
        if sel.1 = [] then ⟨0, pre ++ [Event.msgNoTablesToProcess]⟩
        else runSelected f o op pre sel.1
      else
        if f.interactive && !f.confirm then
          let choice := promptChoice o.menuInput 3
          if choice = -1 ∨ choice = 2 then
            ⟨0, [Event.qryTables true, Event.msgCancelled]⟩
          else if choice = 1 then
            ⟨0, [Event.qryTables true, Event.msgNotImplemented]⟩
          else runSelected f o op [Event.qryTables true] allTables
        else runSelected f o op [Event.qryTables true] allTables

/-!
## Trace observers
-/

/-- Events emitted by the per-table loop body of the destructive phase. -/
def Event.isBodyEv : Event → Bool
  | .qryCountPhase _ _ => true
  | .delRows _ _ => true
  | .dropTbl _ _ => true
  | _ => false

/-- A successful `PRAGMA foreign_keys = OFF`. -/
def isOffOk : Event → Bool
  | .pragmaOff true => true
  | _ => false

/-- The successful in-try `PRAGMA foreign_keys = ON` (the one that
clears the flag). -/
def isOnTryOk : Event → Bool
  | .pragmaOnTry true => true
  | _ => false

/-- Any successful `PRAGMA foreign_keys = ON` inside the phase. -/
def isOnOk : Event → Bool
  | .pragmaOnTry true => true
  | .pragmaOnCatch true => true
  | _ => false

/-- Any attempted `PRAGMA foreign_keys = ON` inside the phase. -/
def isOnAttempt : Event → Bool
  | .pragmaOnTry _ => true
  | .pragmaOnCatch _ => true
  | _ => false

/-- `true` on events that are not a failed re-enable attempt. -/
def onAttemptOkPred : Event → Bool
  | .pragmaOnTry ok => ok
  | .pragmaOnCatch ok => ok
  | _ => true

/-- Number of successful disables in a phase trace. -/
def countOffOk (tr : List (Event × Bool)) : Nat :=
  tr.countP (fun eb => isOffOk eb.1)

/-- Number of successful re-enables in a phase trace. -/
def countOnOk (tr : List (Event × Bool)) : Nat :=
  tr.countP (fun eb => isOnOk eb.1)

/-- Number of attempted re-enables in a phase trace. -/
def countOnAttempts (tr : List (Event × Bool)) : Nat :=
  tr.countP (fun eb => isOnAttempt eb.1)

/-- Every re-enable attempt in the trace succeeded. -/
def onAttemptsAllOk (tr : List (Event × Bool)) : Bool :=
  tr.all (fun eb => onAttemptOkPred eb.1)

/-- A confirmation warning (`displayWarning` output). -/
def Event.isConfirmWarn : Event → Bool
  | .warnIrreversible _ => true
  | _ => false

/-- The final `displayResults` report. -/
def Event.isResultsMsg : Event → Bool
  | .msgResults _ _ => true
  | _ => false

/-- The flag discipline the destructive phase actually obeys: at most
one successful disable; at least one re-enable attempt once disabling
succeeded; successful enables equal successful disables whenever every
re-enable attempt succeeded; and the trace splits into a flag-false
part, a flag-true window opened by the successful disable, and a
flag-false tail opened by the successful in-try re-enable (on the
failure path the window never closes). -/
def FlagDiscipline (r : PhaseOut) : Prop :=
  countOffOk r.events ≤ 1 ∧
  (countOffOk r.events = 1 → 1 ≤ countOnAttempts r.events) ∧
  (onAttemptsAllOk r.events = true → countOnOk r.events = countOffOk r.events) ∧
  ∃ evs1 evs2 evs3 : List Event,
    r.events = withFlag evs1 false ++ withFlag evs2 true ++ withFlag evs3 false ∧
    (∀ e ∈ evs1, isOffOk e = false) ∧
    (evs2 = [] ∨ evs2.head? = some (Event.pragmaOff true)) ∧
    (evs3 = [] ∨ evs3.head? = some (Event.pragmaOnTry true))

/-!
## Selection (`filterTables`)
-/

lemma filterTables_fst (allTables : List String) (s : String) (hs : s ≠ "") :
    (filterTables allTables (some s)).1
      = (requestedNames s).filter (fun t => allTables.contains t) := by
  simp [filterTables, hs]

lemma filterTables_snd (allTables : List String) (s : String) (hs : s ≠ "") :
    (filterTables allTables (some s)).2
      = (requestedNames s).filter (fun t => ¬ allTables.contains t) := by
  simp [filterTables, hs]

/-- C1.  The claim as stated is false: on discovered tables
`["a", "b"]` and the request `"b,a,x,x"`, the selection is `["b", "a"]`
— the order of the request, not of discovery — and the absent name `x`
appears twice, not once, in the not-found report. -/
theorem filterTables_claim_false :
    ¬ ((filterTables ["a", "b"] (some "b,a,x,x")).1
          = ["a", "b"].filter (fun t => (requestedNames "b,a,x,x").contains t) ∧
        ∀ t ∈ requestedNames "b,a,x,x", t ∉ (["a", "b"] : List String) →
          (filterTables ["a", "b"] (some "b,a,x,x")).2.count t = 1) := by
  decide

/-- C1 (amended).  An omitted or empty request string (both falsy in
JS) selects all discovered tables with no warning.  For every non-empty
request string, the selection is exactly the requested names (comma
split, trimmed, empties dropped) that occur in the discovered list, in
request order (a sublist of the request, not of discovery); the
not-found report lists exactly the requested names absent from the
discovered list, once per occurrence in the request, in a single
warning. -/
theorem filterTables_spec (allTables : List String) (s : String) (hs : s ≠ "") :
    filterTables allTables none = (allTables, []) ∧
    filterTables allTables (some "") = (allTables, []) ∧
    ((filterTables allTables (some s)).1).Sublist (requestedNames s) ∧
    (∀ t, t ∈ (filterTables allTables (some s)).1 ↔
      t ∈ requestedNames s ∧ t ∈ allTables) ∧
    ((filterTables allTables (some s)).2).Sublist (requestedNames s) ∧
    (∀ t, t ∈ (filterTables allTables (some s)).2 ↔
      t ∈ requestedNames s ∧ t ∉ allTables) ∧
    (∀ t, t ∉ allTables →
      (filterTables allTables (some s)).2.count t = (requestedNames s).count t) := by
  rw [filterTables_fst allTables s hs, filterTables_snd allTables s hs]
  refine ⟨rfl, rfl, List.filter_sublist _, fun t => ?_, List.filter_sublist _,
    fun t => ?_, fun t ht => ?_⟩
  · simp [List.mem_filter, List.elem_iff]
  · simp [List.mem_filter, List.elem_iff]
  · exact List.count_filter (by simpa [List.elem_iff] using ht)

/-- C1 witness: a concrete instance of the amended selection theorem. -/
theorem filterTables_spec_witness :
    filterTables ["a", "b"] none = (["a", "b"], []) ∧
    filterTables ["a", "b"] (some "") = (["a", "b"], []) ∧
    ((filterTables ["a", "b"] (some "b,a,x,x")).1).Sublist (requestedNames "b,a,x,x") ∧
    (∀ t, t ∈ (filterTables ["a", "b"] (some "b,a,x,x")).1 ↔
      t ∈ requestedNames "b,a,x,x" ∧ t ∈ (["a", "b"] : List String)) ∧
    ((filterTables ["a", "b"] (some "b,a,x,x")).2).Sublist (requestedNames "b,a,x,x") ∧
    (∀ t, t ∈ (filterTables ["a", "b"] (some "b,a,x,x")).2 ↔
      t ∈ requestedNames "b,a,x,x" ∧ t ∉ (["a", "b"] : List String)) ∧
    (∀ t, t ∉ (["a", "b"] : List String) →
      (filterTables ["a", "b"] (some "b,a,x,x")).2.count t
        = (requestedNames "b,a,x,x").count t) :=
  filterTables_spec ["a", "b"] "b,a,x,x" (by decide)

/-!
## Statistics pass (`getTableStats`)
-/

/-- C7.  The statistics pass never aborts: it returns one entry per
selected table, in order, and a table whose count threw (oracle `none`)
degrades to row count `0` while every other table keeps its counted
value. -/
theorem getTableStats_partial_failure (count : String → Option Nat)
    (ts : List String) :
    (getTableStats count ts).map TableStats.name = ts ∧
    ∀ p ∈ getTableStats count ts, p.rowCount = (count p.name).getD 0 := by
  induction ts with
  | nil => simp [getTableStats]
  | cons t ts ih =>
    cases h : count t with
    | none =>
      refine ⟨by simp [getTableStats, h, ih.1], ?_⟩
      intro p hp
      simp only [getTableStats, h, List.mem_cons] at hp
      rcases hp with hp | hp
      · subst hp; simp [h]
      · exact ih.2 p hp
    | some k =>
      refine ⟨by simp [getTableStats, h, ih.1], ?_⟩
      intro p hp
      simp only [getTableStats, h, List.mem_cons] at hp
      rcases hp with hp | hp
      · subst hp; simp [h]
      · exact ih.2 p hp

/-- C7 witness: concrete instance with the middle table's count
throwing. -/
theorem getTableStats_partial_failure_witness :
    (getTableStats (fun t => if t = "b" then none else some 7)
        ["a", "b", "c"]).map TableStats.name = ["a", "b", "c"] ∧
    ∀ p ∈ getTableStats (fun t => if t = "b" then none else some 7)
        ["a", "b", "c"],
      p.rowCount = ((fun t => if t = "b" then none else some 7) p.name).getD 0 :=
  getTableStats_partial_failure _ _

/-!
## Row deletion (`deleteTables`)
-/

lemma deleteTables_state (st : DbState) (ts : List String) (x : String) :
    (deleteTables st ts).2 x = if x ∈ ts then 0 else st x := by
  induction ts generalizing st with
  | nil => simp [deleteTables]
  | cons t ts ih =>
    simp only [deleteTables, ih, clearTable, List.mem_cons]
    by_cases hx : x ∈ ts
    · simp [hx]
    · by_cases hxt : x = t <;> simp [hx, hxt]

lemma deleteTables_of_empty (st : DbState) (ts : List String)
    (h : ∀ t ∈ ts, st t = 0) : (deleteTables st ts).1 = 0 := by
  induction ts generalizing st with
  | nil => rfl
  | cons t ts ih =>
    simp only [deleteTables]
    rw [h t (by simp), ih]
    intro u hu
    simp only [clearTable]
    by_cases hut : u = t <;> simp [hut, h u (List.mem_cons_of_mem t hu)]

/-- C5.  The total `deleteTables` reports is the sum, over the selected
tables, of each table's row count taken immediately before its own
`DELETE`; and running the deletion a second time on the same tables
reports zero deleted rows (the end state is idempotent). -/
theorem deleteTables_total_and_idempotent (st : DbState) (ts : List String) :
    (deleteTables st ts).1 = (preDeleteCounts st ts).sum ∧
    (deleteTables (deleteTables st ts).2 ts).1 = 0 := by
  constructor
  · induction ts generalizing st with
    | nil => rfl
    | cons t ts ih => simp [deleteTables, preDeleteCounts, ih]
  · refine deleteTables_of_empty _ _ (fun t ht => ?_)
    rw [deleteTables_state]
    simp [ht]

/-- C5 witness: two tables with 10 and 3 rows; the first run reports 13
and the second reports 0. -/
theorem deleteTables_total_and_idempotent_witness :
    (deleteTables (fun t => if t = "users" then 10 else if t = "sessions" then 3 else 0)
        ["users", "sessions"]).1
      = (preDeleteCounts
          (fun t => if t = "users" then 10 else if t = "sessions" then 3 else 0)
          ["users", "sessions"]).sum ∧
    (deleteTables
        (deleteTables
          (fun t => if t = "users" then 10 else if t = "sessions" then 3 else 0)
          ["users", "sessions"]).2
        ["users", "sessions"]).1 = 0 :=
  deleteTables_total_and_idempotent _ _

/-!
## Menu input (`promptChoice`)
-/

/-- C10.  `promptChoice` returns `-1` or a zero-based index below `n`;
it returns `i` exactly when the response parses (JavaScript
`parseInt(·, 10)`) to the integer `i + 1` with `1 ≤ i + 1 ≤ n`, and
`-1` for every other response (empty, non-numeric, out of range). -/
theorem promptChoice_spec (s : String) (n : Nat) :
    (promptChoice s n = -1 ∨ 0 ≤ promptChoice s n ∧ promptChoice s n < (n : Int)) ∧
    ∀ i : Nat, promptChoice s n = (i : Int) ↔
      (jsParseInt10 s = some ((i : Int) + 1) ∧ (i : Int) + 1 ≤ (n : Int)) := by
  by_cases hs : s = ""
  · subst hs
    have h0 : jsParseInt10 "0" = some 0 := by decide
    have he : jsParseInt10 "" = none := by decide
    have hp : promptChoice "" n = -1 := by
      show promptChoiceCore (jsParseInt10 (if ("" : String) = "" then "0" else "")) n = -1
      rw [show (if ("" : String) = "" then "0" else "") = "0" from rfl, h0]
      show (if (1 : Int) ≤ 0 ∧ (0 : Int) ≤ (n : Int) then (0 : Int) - 1 else -1) = -1
      rw [if_neg]
      rintro ⟨h1, -⟩
      omega
    refine ⟨Or.inl hp, fun i => ?_⟩
    rw [hp, he]
    constructor
    · intro hcontra
      exfalso
      omega
    · rintro ⟨hcontra, -⟩
      exact absurd hcontra (by simp)
  · simp only [promptChoice, if_neg hs]
    cases h : jsParseInt10 s with
    | none =>
      refine ⟨Or.inl rfl, fun i => ?_⟩
      simp only [promptChoiceCore]
      constructor
      · intro hcontra
        exfalso
        omega
      · rintro ⟨hcontra, -⟩
        exact absurd hcontra (by simp)
    | some v =>
      simp only [promptChoiceCore, Option.some.injEq]
      by_cases hv : 1 ≤ v ∧ v ≤ (n : Int)
      · refine ⟨Or.inr ⟨by rw [if_pos hv]; omega, by rw [if_pos hv]; omega⟩,
          fun i => ?_⟩
        rw [if_pos hv]
        constructor
        · intro hi
          exact ⟨by omega, by omega⟩
        · rintro ⟨hvi, -⟩
          omega
      · refine ⟨Or.inl (if_neg hv), fun i => ?_⟩
        rw [if_neg hv]
        constructor
        · intro hcontra
          exfalso
          omega
        · rintro ⟨hvi, hin⟩
          exfalso
          omega

/-- C10 witness: with three choices, response `"2"` selects index 1. -/
theorem promptChoice_spec_witness :
    (promptChoice "2" 3 = -1 ∨
      0 ≤ promptChoice "2" 3 ∧ promptChoice "2" 3 < (3 : Int)) ∧
    ∀ i : Nat, promptChoice "2" 3 = (i : Int) ↔
      (jsParseInt10 "2" = some ((i : Int) + 1) ∧ (i : Int) + 1 ≤ (3 : Int)) :=
  promptChoice_spec "2" 3

/-!
## Signal re-entry (`gracefulExit`)
-/

/-- C9.  A termination signal received while `isCleaningUp` is already
set forces immediate `process.exit(1)`: the handler emits only the
force-closing notice and performs no further cleanup work. -/
theorem gracefulExit_reentry (sig : String) (onOk : Bool) :
    gracefulExit true sig onOk = (1, [Event.msgForceClose]) := rfl

/-- C9 witness: concrete re-entrant `SIGINT`. -/
theorem gracefulExit_reentry_witness :
    gracefulExit true "SIGINT" true = (1, [Event.msgForceClose]) :=
  gracefulExit_reentry "SIGINT" true

/-!
## Destructive phase: referential-integrity flag discipline
-/

lemma countP_withFlag (p : Event → Bool) (evs : List Event) (b : Bool) :
    (withFlag evs b).countP (fun eb => p eb.1) = evs.countP p := by
  induction evs with
  | nil => rfl
  | cons e es ih =>
    unfold withFlag at ih ⊢
    simp only [List.map_cons, List.countP_cons, ih]

lemma all_withFlag (p : Event → Bool) (evs : List Event) (b : Bool) :
    (withFlag evs b).all (fun eb => p eb.1) = evs.all p := by
  induction evs with
  | nil => rfl
  | cons e es ih =>
    unfold withFlag at ih ⊢
    simp only [List.map_cons, List.all_cons, ih]

lemma map_fst_withFlag (evs : List Event) (b : Bool) :
    (withFlag evs b).map Prod.fst = evs := by
  induction evs with
  | nil => rfl
  | cons e es ih =>
    unfold withFlag at ih ⊢
    simp only [List.map_cons, ih]

lemma withFlag_append (l1 l2 : List Event) (b : Bool) :
    withFlag (l1 ++ l2) b = withFlag l1 b ++ withFlag l2 b :=
  List.map_append _ _ _

lemma deleteBody_isBodyEv (ω : Nat → Bool) (ts : List String) :
    ∀ (i : Nat) (st : DbState), ∀ e ∈ (deleteBody ω i st ts).events,
      e.isBodyEv = true := by
  induction ts with
  | nil => intro i st e he; simp [deleteBody] at he
  | cons t ts ih =>
    intro i st e he
    by_cases h1 : ω i = true
    · by_cases h2 : ω (i + 1) = true
      · simp only [deleteBody, if_pos h1, if_pos h2, List.mem_cons] at he
        rcases he with rfl | rfl | he
        · rfl
        · rfl
        · exact ih _ _ e he
      · simp only [deleteBody, if_pos h1, if_neg h2, List.mem_cons,
          List.not_mem_nil, or_false] at he
        rcases he with rfl | rfl <;> rfl
    · simp only [deleteBody, if_neg h1, List.mem_singleton] at he
      subst he; rfl

lemma dropBody_isBodyEv (ω : Nat → Bool) (ts : List String) :
    ∀ (i : Nat) (st : DbState), ∀ e ∈ (dropBody ω i st ts).events,
      e.isBodyEv = true := by
  induction ts with
  | nil => intro i st e he; simp [dropBody] at he
  | cons t ts ih =>
    intro i st e he
    by_cases h1 : ω i = true
    · simp only [dropBody, if_pos h1, List.mem_cons] at he
      rcases he with rfl | he
      · rfl
      · exact ih _ _ e he
    · simp only [dropBody, if_neg h1, List.mem_singleton] at he
      subst he; rfl

lemma isOffOk_of_body (e : Event) (he : e.isBodyEv = true) : isOffOk e = false := by
  cases e <;> simp_all [Event.isBodyEv, isOffOk]

lemma isOnOk_of_body (e : Event) (he : e.isBodyEv = true) : isOnOk e = false := by
  cases e <;> simp_all [Event.isBodyEv, isOnOk]

lemma isOnAttempt_of_body (e : Event) (he : e.isBodyEv = true) :
    isOnAttempt e = false := by
  cases e <;> simp_all [Event.isBodyEv, isOnAttempt]

lemma body_countP_zero (evs : List Event) (h : ∀ e ∈ evs, e.isBodyEv = true)
    (p : Event → Bool) (hp : ∀ e, e.isBodyEv = true → p e = false) :
    evs.countP p = 0 :=
  List.countP_eq_zero.mpr fun a ha => by simp [hp a (h a ha)]

/-- Properties of the failure path that reaches `phaseCatchEvents` with
the flag set: the window part is `pragmaOff true :: mid ++ catch`. -/
lemma flagDiscipline_catch (ω : Nat → Bool) (j : Nat) (mid : List Event)
    (total : Nat) (st' : DbState)
    (hoff : mid.countP isOffOk = 0) (hon : mid.countP isOnOk = 0)
    (hatt : mid.countP isOnAttempt = 0) :
    FlagDiscipline ⟨withFlag (Event.pragmaOff true :: mid
      ++ phaseCatchEvents ω true j) true, total, st', false⟩ := by
  have hc : phaseCatchEvents ω true j
      = Event.errCleanupLogged :: Event.pragmaOnCatch (ω j)
        :: (if ω j = true then [Event.msgRestored] else [Event.errFkRestoreFailed]) := by
    simp [phaseCatchEvents]
  refine ⟨?_, fun _ => ?_, fun hall => ?_,
    ⟨[], Event.pragmaOff true :: (mid ++ phaseCatchEvents ω true j), [],
      by simp [withFlag], by simp, Or.inr rfl, Or.inl rfl⟩⟩
  · simp only [countOffOk, countP_withFlag, List.countP_cons, List.countP_append,
      hoff, hc]
    cases hj : ω j <;> simp [isOffOk]
  · simp only [countOnAttempts, countP_withFlag, List.countP_cons,
      List.countP_append, hatt, hc]
    cases hj : ω j <;> simp [isOnAttempt]
  · have hj : ω j = true := by
      simp only [onAttemptsAllOk, all_withFlag, hc] at hall
      rw [List.all_eq_true] at hall
      have := hall (Event.pragmaOnCatch (ω j)) (by simp)
      simpa [onAttemptOkPred] using this
    simp only [countOnOk, countOffOk, countP_withFlag, List.countP_cons,
      List.countP_append, hon, hoff, hc, hj]
    simp [isOnOk, isOffOk]

/-- Properties of `phaseFinish` when the window part so far is
`pragmaOff true :: mid`. -/
lemma flagDiscipline_finish (ω : Nat → Bool) (k : Nat) (mid : List Event)
    (n total : Nat) (st' : DbState)
    (hoff : mid.countP isOffOk = 0) (hon : mid.countP isOnOk = 0)
    (hatt : mid.countP isOnAttempt = 0) :
    FlagDiscipline (phaseFinish ω k (Event.pragmaOff true :: mid) n total st') := by
  by_cases hk : ω k = true
  · have hev : (phaseFinish ω k (Event.pragmaOff true :: mid) n total st').events
        = withFlag (Event.pragmaOff true :: mid) true
          ++ withFlag [Event.pragmaOnTry true, Event.msgResults n total] false := by
      simp [phaseFinish, hk, withFlag]
    refine ⟨?_, fun _ => ?_, fun hall => ?_,
      ⟨[], Event.pragmaOff true :: mid, [Event.pragmaOnTry true, Event.msgResults n total],
        by simp [hev, withFlag], by simp, Or.inr rfl, Or.inr rfl⟩⟩
    · simp only [countOffOk, hev, List.countP_append, countP_withFlag,
        List.countP_cons, hoff]
      simp [isOffOk]
    · simp only [countOnAttempts, hev, List.countP_append, countP_withFlag,
        List.countP_cons, hatt]
      simp [isOnAttempt]
    · simp only [countOnOk, countOffOk, hev, List.countP_append, countP_withFlag,
        List.countP_cons, hon, hoff]
      simp [isOnOk, isOffOk]
  · have hev : (phaseFinish ω k (Event.pragmaOff true :: mid) n total st').events
        = withFlag (Event.pragmaOff true :: (mid ++ Event.pragmaOnTry false
            :: phaseCatchEvents ω true (k + 1))) true := by
      simp [phaseFinish, hk, withFlag_append, withFlag]
    have hc : phaseCatchEvents ω true (k + 1)
        = Event.errCleanupLogged :: Event.pragmaOnCatch (ω (k + 1))
          :: (if ω (k + 1) = true then [Event.msgRestored]
              else [Event.errFkRestoreFailed]) := by
      simp [phaseCatchEvents]
    refine ⟨?_, fun _ => ?_, fun hall => ?_,
      ⟨[], Event.pragmaOff true :: (mid ++ Event.pragmaOnTry false
          :: phaseCatchEvents ω true (k + 1)), [],
        by rw [hev]; simp [withFlag], by simp, Or.inr rfl, Or.inl rfl⟩⟩
    · simp only [countOffOk, hev, countP_withFlag, List.countP_cons,
        List.countP_append, hoff, hc]
      cases hj : ω (k + 1) <;> simp [isOffOk]
    · simp only [countOnAttempts, hev, countP_withFlag, List.countP_cons,
        List.countP_append, hatt, hc]
      cases hj : ω (k + 1) <;> simp [isOnAttempt]
    · exfalso
      simp only [onAttemptsAllOk, hev, all_withFlag] at hall
      rw [List.all_eq_true] at hall
      have := hall (Event.pragmaOnTry false) (by simp [hc])
      simp [onAttemptOkPred] at this

/-- C3.  The claim as stated is false: on a delete run of one table
whose `DELETE` throws (all other statements succeeding), enforcement is
enabled once and disabled once — not one more time than disabled — and
the `foreignKeysDisabled` flag is still true on the event after the
successful catch-path re-enable. -/
theorem destructivePhase_claim_false :
    ¬ (countOnOk (destructivePhase (fun i => !(i == 2)) Operation.delete ["t"]
          false (fun _ => 5)).events
        = countOffOk (destructivePhase (fun i => !(i == 2)) Operation.delete ["t"]
            false (fun _ => 5)).events + 1 ∧
      ∀ i j : Fin (destructivePhase (fun i => !(i == 2)) Operation.delete ["t"]
          false (fun _ => 5)).events.length,
        isOnOk ((destructivePhase (fun i => !(i == 2)) Operation.delete ["t"]
            false (fun _ => 5)).events.get i).1 = true →
        i < j →
        ((destructivePhase (fun i => !(i == 2)) Operation.delete ["t"]
            false (fun _ => 5)).events.get j).2 = false) := by
  decide

/-- C3 (amended).  Every destructive phase obeys `FlagDiscipline`:
at most one successful disable; at least one re-enable attempt whenever
the disable succeeded; successful enables equal (not exceed by one)
successful disables whenever every re-enable attempt succeeds; and the
`foreignKeysDisabled` flag is false before the successful disable, true
from it up to the in-try re-enable, and on the failure path stays true
to the end of the phase. -/
theorem destructivePhase_flag (ω : Nat → Bool) (op : Operation)
    (ts : List String) (seq : Bool) (st : DbState) :
    FlagDiscipline (destructivePhase ω op ts seq st) := by
  by_cases h0 : ω 0 = true
  · cases op with
    | drop =>
      have hbody := dropBody_isBodyEv ω ts 1 st
      have hoff := body_countP_zero _ hbody isOffOk isOffOk_of_body
      have hon := body_countP_zero _ hbody isOnOk isOnOk_of_body
      have hatt := body_countP_zero _ hbody isOnAttempt isOnAttempt_of_body
      simp only [destructivePhase, if_pos h0]
      cases htot : (dropBody ω 1 st ts).total with
      | none => exact flagDiscipline_catch _ _ _ _ _ hoff hon hatt
      | some total => exact flagDiscipline_finish _ _ _ _ _ _ hoff hon hatt
    | delete =>
      have hbody := deleteBody_isBodyEv ω ts 1 st
      have hoff := body_countP_zero _ hbody isOffOk isOffOk_of_body
      have hon := body_countP_zero _ hbody isOnOk isOnOk_of_body
      have hatt := body_countP_zero _ hbody isOnAttempt isOnAttempt_of_body
      simp only [destructivePhase, if_pos h0]
      cases htot : (deleteBody ω 1 st ts).total with
      | none => exact flagDiscipline_catch _ _ _ _ _ hoff hon hatt
      | some total =>
        dsimp only
        by_cases hn : ω (deleteBody ω 1 st ts).next = true
        · rw [if_pos hn]
          cases hseq : seq with
          | true =>
            rw [if_pos rfl]
            by_cases hn1 : ω ((deleteBody ω 1 st ts).next + 1) = true
            · rw [if_pos hn1]
              refine flagDiscipline_finish _ _ _ _ _ _ ?_ ?_ ?_ <;>
                simp [List.countP_append, hoff, hon, hatt, isOffOk, isOnOk,
                  isOnAttempt, List.countP_cons]
            · rw [if_neg hn1]
              have h2 : (Event.pragmaOff true :: (deleteBody ω 1 st ts).events
                    ++ [Event.qrySeqTable true, Event.delSeq false]
                    ++ phaseCatchEvents ω true ((deleteBody ω 1 st ts).next + 2))
                  = Event.pragmaOff true :: ((deleteBody ω 1 st ts).events
                    ++ [Event.qrySeqTable true, Event.delSeq false])
                    ++ phaseCatchEvents ω true ((deleteBody ω 1 st ts).next + 2) := by
                simp
              rw [h2]
              refine flagDiscipline_catch _ _ _ _ _ ?_ ?_ ?_ <;>
                simp [List.countP_append, hoff, hon, hatt, isOffOk, isOnOk,
                  isOnAttempt, List.countP_cons]
          | false =>
            rw [if_neg (by simp)]
            refine flagDiscipline_finish _ _ _ _ _ _ ?_ ?_ ?_ <;>
              simp [List.countP_append, hoff, hon, hatt, isOffOk, isOnOk,
                isOnAttempt, List.countP_cons]
        · rw [if_neg hn]
          have h2 : (Event.pragmaOff true :: (deleteBody ω 1 st ts).events
                ++ [Event.qrySeqTable false]
                ++ phaseCatchEvents ω true ((deleteBody ω 1 st ts).next + 1))
              = Event.pragmaOff true :: ((deleteBody ω 1 st ts).events
                ++ [Event.qrySeqTable false])
                ++ phaseCatchEvents ω true ((deleteBody ω 1 st ts).next + 1) := by
            simp
          rw [h2]
          refine flagDiscipline_catch _ _ _ _ _ ?_ ?_ ?_ <;>
            simp [List.countP_append, hoff, hon, hatt, isOffOk, isOnOk,
              isOnAttempt, List.countP_cons]
  · simp only [destructivePhase, if_neg h0]
    have hc : phaseCatchEvents ω false 1 = [Event.errCleanupLogged] := rfl
    refine ⟨?_, fun hcontra => ?_, fun _ => ?_,
      ⟨[Event.pragmaOff false, Event.errCleanupLogged], [], [],
        by simp [hc, withFlag], by decide, Or.inl rfl, Or.inl rfl⟩⟩
    · rw [hc]; dsimp only; decide
    · rw [hc] at hcontra
      dsimp only at hcontra
      exact absurd hcontra (by decide)
    · rw [hc]; dsimp only; decide

/-- C3 witness: concrete all-success delete phase. -/
theorem destructivePhase_flag_witness :
    FlagDiscipline (destructivePhase (fun _ => true) Operation.delete ["t"]
      true (fun _ => 5)) :=
  destructivePhase_flag _ _ _ _ _

/-!
## Whole-run theorems
-/

/-- C8.  Requesting only the non-existent table `ghost` yields an empty
selection, a single not-found warning, the no-tables-to-process notice,
exit status 0, and no mutating statement. -/
theorem runCleanup_ghost (f : Flags) (o : Oracle) (L : List String)
    (hf : f.tables = some "ghost") (ho : o.discovered = some L)
    (hne : L ≠ []) (hg : "ghost" ∉ L) :
    (filterTables L (some "ghost")).1 = [] ∧
    runCleanup f o = ⟨0, [Event.qryTables true, Event.warnNotFound ["ghost"],
      Event.msgNoTablesToProcess]⟩ ∧
    ∀ e ∈ (runCleanup f o).events, e.isMutation = false := by
  have hreq : requestedNames "ghost" = ["ghost"] := by decide
  have hfilt : (filterTables L (some "ghost")).1 = [] := by
    rw [filterTables_fst L "ghost" (by decide), hreq]
    simp [List.filter, hg]
  have hnf : (filterTables L (some "ghost")).2 = ["ghost"] := by
    rw [filterTables_snd L "ghost" (by decide), hreq]
    simp [List.filter, hg]
  have htg : tablesGiven (some "ghost") = true := by decide
  have hrun : runCleanup f o = ⟨0, [Event.qryTables true,
      Event.warnNotFound ["ghost"], Event.msgNoTablesToProcess]⟩ := by
    simp only [runCleanup, ho, if_neg hne, hf, htg, hfilt, hnf]
    simp
  exact ⟨hfilt, hrun, by rw [hrun]; decide⟩

/-- C8 witness: discovered tables `["a"]`, request `ghost`. -/
theorem runCleanup_ghost_witness :
    (filterTables ["a"] (some "ghost")).1 = [] ∧
    runCleanup ⟨true, some "ghost", false, false, true⟩
        ⟨some ["a"], fun _ => some 0, "", "", fun _ => true, false, fun _ => 0, true⟩
      = ⟨0, [Event.qryTables true, Event.warnNotFound ["ghost"],
          Event.msgNoTablesToProcess]⟩ ∧
    ∀ e ∈ (runCleanup ⟨true, some "ghost", false, false, true⟩
        ⟨some ["a"], fun _ => some 0, "", "", fun _ => true, false, fun _ => 0,
          true⟩).events, e.isMutation = false :=
  runCleanup_ghost _ _ ["a"] rfl rfl (by decide) (by decide)

/-- C2.  Concrete failing destructive phase (the `DELETE FROM "t"`
statement throws, every other statement succeeds, `--confirm` given):
the error is logged exactly once inside `cleanup`, one best-effort
re-enable is attempted in the catch block, the error is re-thrown to the
entry-point handler — and the process exits with status 0, because
`gracefulExit` reaches `process.exit(0)` before the chained
`process.exit(1)` can run. -/
theorem runCleanup_error_exit_code :
    runCleanup ⟨true, none, false, false, true⟩
        ⟨some ["t"], fun _ => some 5, "", "", fun i => !(i == 2), false,
          fun _ => 5, true⟩
      = ⟨0, [Event.qryTables true, Event.qryCountStats "t" true,
          Event.pragmaOff true, Event.qryCountPhase "t" true,
          Event.delRows "t" false, Event.errCleanupLogged,
          Event.pragmaOnCatch true, Event.msgRestored,
          Event.msgUnexpectedError, Event.msgReceivedSignal "error",
          Event.pragmaOnGfx true, Event.msgDbRestored, Event.msgGoodbye]⟩ := by
  decide

lemma runSelected_dryRun (f : Flags) (o : Oracle) (op : Operation)
    (pre : List Event) (sel : List String) (hd : f.dryRun = true) :
    runSelected f o op pre sel
      = ⟨0, (pre ++ sel.map (fun t => Event.qryCountStats t (o.statsCount t).isSome))
          ++ [Event.msgDryRun]⟩ := by
  simp [runSelected, hd]

lemma benign_stats (o : Oracle) (sel : List String) :
    ∀ e ∈ sel.map (fun t => Event.qryCountStats t (o.statsCount t).isSome),
      e.isMutation = false ∧ e.isConfirmWarn = false ∧ e.isResultsMsg = false := by
  intro e he
  simp only [List.mem_map] at he
  obtain ⟨t, -, rfl⟩ := he
  exact ⟨rfl, rfl, rfl⟩

lemma benign_pre (L : List String) (ot : Option String) :
    ∀ e ∈ Event.qryTables true ::
      (if (filterTables L ot).2 = [] then []
       else [Event.warnNotFound (filterTables L ot).2]),
      e.isMutation = false ∧ e.isConfirmWarn = false ∧ e.isResultsMsg = false := by
  intro e he
  by_cases hn : (filterTables L ot).2 = []
  · rw [if_pos hn] at he
    simp only [List.mem_singleton] at he
    subst he
    exact ⟨rfl, rfl, rfl⟩
  · rw [if_neg hn] at he
    simp only [List.mem_cons, List.mem_singleton, List.not_mem_nil, or_false] at he
    rcases he with rfl | rfl
    · exact ⟨rfl, rfl, rfl⟩
    · exact ⟨rfl, rfl, rfl⟩

lemma runSelected_dryRun_benign (f : Flags) (o : Oracle) (op : Operation)
    (pre : List Event) (sel : List String) (hd : f.dryRun = true)
    (hpre : ∀ e ∈ pre,
      e.isMutation = false ∧ e.isConfirmWarn = false ∧ e.isResultsMsg = false) :
    (runSelected f o op pre sel).exitCode = 0 ∧
    ∀ e ∈ (runSelected f o op pre sel).events,
      e.isMutation = false ∧ e.isConfirmWarn = false ∧ e.isResultsMsg = false := by
  rw [runSelected_dryRun f o op pre sel hd]
  refine ⟨rfl, fun e he => ?_⟩
  simp only [List.mem_append, List.mem_singleton] at he
  rcases he with (he | he) | rfl
  · exact hpre e he
  · exact benign_stats o sel e he
  · exact ⟨rfl, rfl, rfl⟩

/-- C4.  With `--dry-run`, whatever the other flags and however the
per-table statistics queries fare, a run whose discovery query succeeds
issues no mutating statement (no `DELETE`, `DROP`, sequence reset, or
`PRAGMA` toggle), displays neither the confirmation warning nor the
final results report (it stops at the dry-run notice), and exits with
status 0. -/
theorem runCleanup_dryRun (f : Flags) (o : Oracle) (L : List String)
    (hd : f.dryRun = true) (ho : o.discovered = some L) :
    (runCleanup f o).exitCode = 0 ∧
    ∀ e ∈ (runCleanup f o).events,
      e.isMutation = false ∧ e.isConfirmWarn = false ∧ e.isResultsMsg = false := by
  rw [runCleanup]
  rw [ho]
  dsimp only
  by_cases hL : L = []
  · rw [if_pos hL]
    exact ⟨rfl, by decide⟩
  · rw [if_neg hL]
    by_cases htg : tablesGiven f.tables = true
    · rw [if_pos htg]
      by_cases hsel : (filterTables L f.tables).1 = []
      · rw [if_pos hsel]
        refine ⟨rfl, fun e he => ?_⟩
        simp only [List.mem_append, List.mem_singleton] at he
        rcases he with he | rfl
        · exact benign_pre L f.tables e he
        · exact ⟨rfl, rfl, rfl⟩
      · rw [if_neg hsel]
        exact runSelected_dryRun_benign _ _ _ _ _ hd (benign_pre L f.tables)
    · rw [if_neg htg]
      by_cases hia : (f.interactive && !f.confirm) = true
      · rw [if_pos hia]
        by_cases hch : promptChoice o.menuInput 3 = -1 ∨ promptChoice o.menuInput 3 = 2
        · rw [if_pos hch]
          exact ⟨rfl, by decide⟩
        · rw [if_neg hch]
          by_cases hch1 : promptChoice o.menuInput 3 = 1
          · rw [if_pos hch1]
            exact ⟨rfl, by decide⟩
          · rw [if_neg hch1]
            refine runSelected_dryRun_benign _ _ _ _ _ hd ?_
            intro e he
            simp only [List.mem_singleton] at he
            subst he
            exact ⟨rfl, rfl, rfl⟩
      · rw [if_neg hia]
        refine runSelected_dryRun_benign _ _ _ _ _ hd ?_
        intro e he
        simp only [List.mem_singleton] at he
        subst he
        exact ⟨rfl, rfl, rfl⟩

lemma entryCatch_eq (o : Oracle) (pre : List Event) :
    entryCatch o pre = ⟨0, pre ++ Event.msgUnexpectedError
      :: (gracefulExit false "error" o.gfxOn).2⟩ := rfl

lemma runSelected_gate_false_eq (f : Flags) (o : Oracle) (op : Operation)
    (pre : List Event) (sel : List String) (hcf : f.confirm = false)
    (hd : f.dryRun = false) (hyn : promptYesNo o.yesNoInput false = false) :
    runSelected f o op pre sel
      = ⟨0, (pre ++ sel.map (fun t => Event.qryCountStats t (o.statsCount t).isSome))
          ++ [Event.warnIrreversible (warningText op), Event.msgCancelled]⟩ := by
  simp [runSelected, hcf, hd, hyn]

lemma runSelected_gate_true_ok (f : Flags) (o : Oracle) (op : Operation)
    (pre : List Event) (sel : List String) (hcf : f.confirm = false)
    (hd : f.dryRun = false) (hyn : promptYesNo o.yesNoInput false = true)
    (hok : (destructivePhase o.phase op sel o.seqTable o.st).ok = true) :
    runSelected f o op pre sel
      = ⟨0, (pre ++ sel.map (fun t => Event.qryCountStats t (o.statsCount t).isSome))
          ++ Event.warnIrreversible (warningText op)
          :: (destructivePhase o.phase op sel o.seqTable o.st).events.map
              (fun eb => eb.1)⟩ := by
  simp [runSelected, hcf, hd, hyn, hok]

lemma runSelected_gate_true_fail (f : Flags) (o : Oracle) (op : Operation)
    (pre : List Event) (sel : List String) (hcf : f.confirm = false)
    (hd : f.dryRun = false) (hyn : promptYesNo o.yesNoInput false = true)
    (hok : (destructivePhase o.phase op sel o.seqTable o.st).ok = false) :
    runSelected f o op pre sel
      = ⟨0, ((pre ++ sel.map (fun t => Event.qryCountStats t (o.statsCount t).isSome))
          ++ Event.warnIrreversible (warningText op)
          :: (destructivePhase o.phase op sel o.seqTable o.st).events.map
              (fun eb => eb.1))
          ++ Event.msgUnexpectedError :: (gracefulExit false "error" o.gfxOn).2⟩ := by
  rw [runSelected]
  simp only [hd, Bool.false_eq_true, if_false, hcf, hyn, if_true, hok]
  rw [entryCatch_eq]
  simp [hok]

/-- Either everything in the run is non-mutating, or the gate was passed
affirmatively and the trace splits at the irreversible-action warning
with nothing mutating before it. -/
lemma runSelected_gate_cases (f : Flags) (o : Oracle) (op : Operation)
    (pre : List Event) (sel : List String) (hcf : f.confirm = false)
    (hpre : ∀ e ∈ pre,
      e.isMutation = false ∧ e.isConfirmWarn = false ∧ e.isResultsMsg = false) :
    (runSelected f o op pre sel).exitCode = 0 ∧
    ((∀ e ∈ (runSelected f o op pre sel).events, e.isMutation = false) ∨
      (promptYesNo o.yesNoInput false = true ∧
        ∃ l1 l2, (runSelected f o op pre sel).events
            = l1 ++ Event.warnIrreversible (warningText op) :: l2 ∧
          ∀ e ∈ l1, e.isMutation = false)) := by
  by_cases hd : f.dryRun = true
  · obtain ⟨hx, hb⟩ := runSelected_dryRun_benign f o op pre sel hd hpre
    exact ⟨hx, Or.inl fun e he => (hb e he).1⟩
  · rw [Bool.not_eq_true] at hd
    by_cases hyn : promptYesNo o.yesNoInput false = true
    · have hl1 : ∀ e ∈ pre ++ sel.map
          (fun t => Event.qryCountStats t (o.statsCount t).isSome),
          e.isMutation = false := by
        intro e he
        rcases List.mem_append.mp he with he | he
        · exact (hpre e he).1
        · exact (benign_stats o sel e he).1
      by_cases hok : (destructivePhase o.phase op sel o.seqTable o.st).ok = true
      · rw [runSelected_gate_true_ok f o op pre sel hcf hd hyn hok]
        exact ⟨rfl, Or.inr ⟨hyn, _, _, rfl, hl1⟩⟩
      · rw [Bool.not_eq_true] at hok
        rw [runSelected_gate_true_fail f o op pre sel hcf hd hyn hok]
        refine ⟨rfl, Or.inr ⟨hyn,
          pre ++ sel.map (fun t => Event.qryCountStats t (o.statsCount t).isSome),
          (destructivePhase o.phase op sel o.seqTable o.st).events.map
              (fun eb => eb.1)
            ++ Event.msgUnexpectedError :: (gracefulExit false "error" o.gfxOn).2,
          ?_, hl1⟩⟩
        simp
    · rw [Bool.not_eq_true] at hyn
      rw [runSelected_gate_false_eq f o op pre sel hcf hd hyn]
      refine ⟨rfl, Or.inl fun e he => ?_⟩
      simp only [List.mem_append, List.mem_cons, List.not_mem_nil, or_false] at he
      rcases he with (he | he) | rfl | rfl
      · exact (hpre e he).1
      · exact (benign_stats o sel e he).1
      · rfl
      · rfl

/-- C6.  In every run without `--confirm` whose discovery succeeded:
the drop and delete warnings have distinct wording; a non-affirmative
response to the confirmation prompt (including empty input, which
defaults to no) gives exit status 0 with no mutating statement; and if
any mutating statement is issued at all, the prompt was answered
affirmatively and the run's trace shows the operation-specific
irreversible-action warning with no mutating statement before it. -/
theorem runCleanup_confirm_gate (f : Flags) (o : Oracle) (L : List String)
    (hc : f.confirm = false) (ho : o.discovered = some L) :
    warningText Operation.drop ≠ warningText Operation.delete ∧
    (promptYesNo o.yesNoInput false = false →
      (runCleanup f o).exitCode = 0 ∧
      ∀ e ∈ (runCleanup f o).events, e.isMutation = false) ∧
    ((∃ e ∈ (runCleanup f o).events, e.isMutation = true) →
      promptYesNo o.yesNoInput false = true ∧
      ∃ l1 l2, (runCleanup f o).events
          = l1 ++ Event.warnIrreversible (warningText
              (if f.drop then Operation.drop else Operation.delete)) :: l2 ∧
        ∀ e ∈ l1, e.isMutation = false) := by
  have key : (runCleanup f o).exitCode = 0 ∧
      ((∀ e ∈ (runCleanup f o).events, e.isMutation = false) ∨
        (promptYesNo o.yesNoInput false = true ∧
          ∃ l1 l2, (runCleanup f o).events
              = l1 ++ Event.warnIrreversible (warningText
                  (if f.drop then Operation.drop else Operation.delete)) :: l2 ∧
            ∀ e ∈ l1, e.isMutation = false)) := by
    rw [runCleanup, ho]
    dsimp only
    by_cases hL : L = []
    · rw [if_pos hL]
      exact ⟨rfl, Or.inl (by decide)⟩
    · rw [if_neg hL]
      by_cases htg : tablesGiven f.tables = true
      · rw [if_pos htg]
        by_cases hsel : (filterTables L f.tables).1 = []
        · rw [if_pos hsel]
          refine ⟨rfl, Or.inl fun e he => ?_⟩
          simp only [List.mem_append, List.mem_singleton] at he
          rcases he with he | rfl
          · exact (benign_pre L f.tables e he).1
          · rfl
        · rw [if_neg hsel]
          exact runSelected_gate_cases f o _ _ _ hc (benign_pre L f.tables)
      · rw [if_neg htg]
        by_cases hia : (f.interactive && !f.confirm) = true
        · rw [if_pos hia]
          by_cases hch : promptChoice o.menuInput 3 = -1 ∨ promptChoice o.menuInput 3 = 2
          · rw [if_pos hch]
            exact ⟨rfl, Or.inl (by decide)⟩
          · rw [if_neg hch]
            by_cases hch1 : promptChoice o.menuInput 3 = 1
            · rw [if_pos hch1]
              exact ⟨rfl, Or.inl (by decide)⟩
            · rw [if_neg hch1]
              refine runSelected_gate_cases f o _ _ _ hc ?_
              intro e he
              simp only [List.mem_singleton] at he
              subst he
              exact ⟨rfl, rfl, rfl⟩
        · rw [if_neg hia]
          refine runSelected_gate_cases f o _ _ _ hc ?_
          intro e he
          simp only [List.mem_singleton] at he
          subst he
          exact ⟨rfl, rfl, rfl⟩
  refine ⟨by decide, fun hynf => ⟨key.1, ?_⟩, fun hex => ?_⟩
  · rcases key.2 with hb | ⟨hyt, -⟩
    · exact hb
    · rw [hynf] at hyt
      exact absurd hyt (by simp)
  · rcases key.2 with hb | h
    · obtain ⟨e, he, hm⟩ := hex
      rw [hb e he] at hm
      exact absurd hm (by simp)
    · exact h

/-- C6 witness: interactive delete run, menu choice 1 (all tables),
affirmative `y`, all statements succeeding. -/
theorem runCleanup_confirm_gate_witness :
    warningText Operation.drop ≠ warningText Operation.delete ∧
    (promptYesNo "y" false = false →
      (runCleanup ⟨false, none, false, false, true⟩
          ⟨some ["t"], fun _ => some 4, "1", "y", fun _ => true, false,
            fun _ => 4, true⟩).exitCode = 0 ∧
      ∀ e ∈ (runCleanup ⟨false, none, false, false, true⟩
          ⟨some ["t"], fun _ => some 4, "1", "y", fun _ => true, false,
            fun _ => 4, true⟩).events, e.isMutation = false) ∧
    ((∃ e ∈ (runCleanup ⟨false, none, false, false, true⟩
          ⟨some ["t"], fun _ => some 4, "1", "y", fun _ => true, false,
            fun _ => 4, true⟩).events, e.isMutation = true) →
      promptYesNo "y" false = true ∧
      ∃ l1 l2, (runCleanup ⟨false, none, false, false, true⟩
          ⟨some ["t"], fun _ => some 4, "1", "y", fun _ => true, false,
            fun _ => 4, true⟩).events
          = l1 ++ Event.warnIrreversible (warningText
              (if (false : Bool) then Operation.drop else Operation.delete)) :: l2 ∧
        ∀ e ∈ l1, e.isMutation = false) :=
  runCleanup_confirm_gate ⟨false, none, false, false, true⟩
    ⟨some ["t"], fun _ => some 4, "1", "y", fun _ => true, false, fun _ => 4, true⟩
    ["t"] rfl rfl

/-- C4 witness: dry-run over one table with `--drop` also set. -/
theorem runCleanup_dryRun_witness :
    (runCleanup ⟨false, none, true, true, true⟩
        ⟨some ["t"], fun _ => some 4, "1", "y", fun _ => true, true,
          fun _ => 4, true⟩).exitCode = 0 ∧
    ∀ e ∈ (runCleanup ⟨false, none, true, true, true⟩
        ⟨some ["t"], fun _ => some 4, "1", "y", fun _ => true, true,
          fun _ => 4, true⟩).events,
      e.isMutation = false ∧ e.isConfirmWarn = false ∧ e.isResultsMsg = false :=
  runCleanup_dryRun _ _ ["t"] rfl rfl

end DbCleanup
